import Mathlib

/-!
Verification of the Nice Flor-S cover controller (cover.py) against its
natural-language specification.

The development shallowly embeds the program:

* the rolling-code frame encoder (cover.py lines 196-228), with the two
  keystream tables (imported by the source from the external data module
  encode_tables) abstracted as functions of type Nat to Nat;
* the pulse-train serializer of class RFDevice (lines 55-119), where the
  Python expression fed to the bit loop, a formatted binary string whose
  field width 52 includes the 0b prefix, is modelled bit-exactly and an
  out-of-range string index is modelled as Option.none;
* the NiceBlindController state machine (close_blind, open_blind,
  stop_blind, set_position, start, _on_mqtt_message), with observable
  behaviour captured as a trace of events (RF bursts, sleeps, state
  publications) and the float sleep durations modelled exactly in the
  rationals;
* the NextCodeEntity rolling-code store, with the fallible file write
  modelled by an explicit failure flag.

Definitions come first, then all theorems.
-/

namespace Cover

/-- Button identifier OPEN of the Nice Flor-S protocol (cover.py line 30). -/
def BUTTON_ID_OPEN : Nat := 1

/-- Button identifier STOP (cover.py line 31). -/
def BUTTON_ID_STOP : Nat := 2

/-- Button identifier CLOSE (cover.py line 32). -/
def BUTTON_ID_CLOSE : Nat := 4

/-- Constant `GPIO_NONE = 0` (cover.py line 33). -/
def GPIO_NONE : Nat := 0

/-- Transcription of `NiceBlindController._nice_flor_s_encode`
(cover.py lines 196-228).  The two keystream tables
`NICE_FLOR_S_TABLE_ENCODE` and `NICE_FLOR_S_TABLE_KI` are external data
assets of the repository and are abstracted as the functions `tE` and `tK`. -/
def _nice_flor_s_encode (tE tK : Nat → Nat) (serial code button_id rpt : Nat) : Nat :=
  let snbuff0 := serial &&& 0xFF
  let snbuff1 := (serial &&& 0xFF00) >>> 8
  let snbuff2 := (serial &&& 0xFF0000) >>> 16
  let snbuff3 := (serial &&& 0xFF000000) >>> 24
  let enccode := tE code
  let ki := tK (code &&& 0xFF) ^^^ (enccode &&& 0xFF)
  let encbuff0 := button_id &&& 0x0F
  let encbuff1 := ((rpt ^^^ button_id ^^^ 0x0F) <<< 4) ||| ((snbuff3 ^^^ ki) &&& 0x0F)
  let encbuff2 := enccode >>> 8
  let encbuff3 := enccode &&& 0xFF
  let encbuff4 := snbuff2 ^^^ ki
  let encbuff5 := snbuff1 ^^^ ki
  let encbuff6 := snbuff0 ^^^ ki
  let encoded0 := ((encbuff6 <<< 4) &&& 0xF0) <<< 0
  let encoded1 := encoded0 ||| ((((encbuff5 &&& 0x0F) <<< 4) ||| ((encbuff6 &&& 0xF0) >>> 4)) <<< 8)
  let encoded2 := encoded1 ||| ((((encbuff4 &&& 0x0F) <<< 4) ||| ((encbuff5 &&& 0xF0) >>> 4)) <<< 16)
  let encoded3 := encoded2 ||| ((((encbuff3 &&& 0x0F) <<< 4) ||| ((encbuff4 &&& 0xF0) >>> 4)) <<< 24)
  let encoded4 := encoded3 ||| ((((encbuff2 &&& 0x0F) <<< 4) ||| ((encbuff3 &&& 0xF0) >>> 4)) <<< 32)
  let encoded5 := encoded4 ||| ((((encbuff1 &&& 0x0F) <<< 4) ||| ((encbuff2 &&& 0xF0) >>> 4)) <<< 40)
  let encoded6 := encoded5 ||| ((((encbuff0 &&& 0x0F) <<< 4) ||| ((encbuff1 &&& 0xF0) >>> 4)) <<< 48)
  let encodedX := encoded6 ^^^ 0xFFFFFFFFFFFFF0
  encodedX >>> 4

/-- Nibble-interleaving pack of the seven buffer bytes into a 56-bit value,
written from the words of the specification (section 4.1 step 5): the bytes
are packed in reverse byte order, byte 6 contributing the lowest nibbles and
the low nibble of byte 0 becoming the high nibble of the top octet; the low
nibble of the packed value is zero and the high nibble of byte 0 is
discarded. -/
def spec_pack (e0 e1 e2 e3 e4 e5 e6 : Nat) : Nat :=
  e6 % 16 * 2 ^ 4 + e6 / 16 % 16 * 2 ^ 8 +
  e5 % 16 * 2 ^ 12 + e5 / 16 % 16 * 2 ^ 16 +
  e4 % 16 * 2 ^ 20 + e4 / 16 % 16 * 2 ^ 24 +
  e3 % 16 * 2 ^ 28 + e3 / 16 % 16 * 2 ^ 32 +
  e2 % 16 * 2 ^ 36 + e2 / 16 % 16 * 2 ^ 40 +
  e1 % 16 * 2 ^ 44 + e1 / 16 % 16 * 2 ^ 48 +
  e0 % 16 * 2 ^ 52

/-- Reference encoding algorithm written from the words of the specification
(section 4.1, steps 1-6): split the serial into four bytes least-significant
first, look up `enc` and derive `ki`, build the seven bytes e0..e6 exactly as
written, pack them by interleaving nibbles in reverse byte order, then
return `(packed XOR 0xFFFFFFFFFFFFF0) >> 4` retained as a 52-bit value. -/
def spec_encode (tE tK : Nat → Nat) (serial code button rpt : Nat) : Nat :=
  let b0 := serial &&& 0xFF
  let b1 := (serial >>> 8) &&& 0xFF
  let b2 := (serial >>> 16) &&& 0xFF
  let b3 := (serial >>> 24) &&& 0xFF
  let enc := tE code
  let ki := tK (code &&& 0xFF) ^^^ (enc &&& 0xFF)
  let e0 := button &&& 0x0F
  let e1 := ((rpt ^^^ button ^^^ 0x0F) <<< 4) ||| ((b3 ^^^ ki) &&& 0x0F)
  let e2 := enc >>> 8
  let e3 := enc &&& 0xFF
  let e4 := b2 ^^^ ki
  let e5 := b1 ^^^ ki
  let e6 := b0 ^^^ ki
  let packed := spec_pack e0 e1 e2 e3 e4 e5 e6
  ((packed ^^^ 0xFFFFFFFFFFFFF0) >>> 4) % 2 ^ 52

/-- A pigpio pulse, `pigpio.pulse(gpio_on, gpio_off, delay)`.  A HIGH segment
sets `gpio_on` to the gpio mask of the device, a LOW segment sets
`gpio_off`. -/
structure pulse where
  gpio_on : Nat
  gpio_off : Nat
  delay : Nat
deriving DecidableEq

/-- Constant `self.tx_pulse_short = 500` (cover.py line 67). -/
def tx_pulse_short : Nat := 500

/-- Constant `self.tx_pulse_long = 1000` (cover.py line 68). -/
def tx_pulse_long : Nat := 1000

/-- Constant `self.tx_pulse_sync = 1500` (cover.py line 69). -/
def tx_pulse_sync : Nat := 1500

/-- Constant `self.tx_pulse_gap = 15000` (cover.py line 70). -/
def tx_pulse_gap : Nat := 15000

/-- Constant `self.tx_length = 52` (cover.py line 71). -/
def tx_length : Nat := 52

/-- Transcription of `RFDevice.tx_l0` (cover.py lines 98-102): HIGH for
500 microseconds, then LOW for 1000. -/
def tx_l0 (gpio : Nat) : List pulse :=
  [⟨gpio, GPIO_NONE, tx_pulse_short⟩, ⟨GPIO_NONE, gpio, tx_pulse_long⟩]

/-- Transcription of `RFDevice.tx_l1` (cover.py lines 104-108): HIGH for
1000 microseconds, then LOW for 500. -/
def tx_l1 (gpio : Nat) : List pulse :=
  [⟨gpio, GPIO_NONE, tx_pulse_long⟩, ⟨GPIO_NONE, gpio, tx_pulse_short⟩]

/-- Transcription of `RFDevice.tx_sync` (cover.py lines 110-114): HIGH then
LOW, 1500 microseconds each. -/
def tx_sync (gpio : Nat) : List pulse :=
  [⟨gpio, GPIO_NONE, tx_pulse_sync⟩, ⟨GPIO_NONE, gpio, tx_pulse_sync⟩]

/-- Transcription of `RFDevice.tx_gap` (cover.py lines 116-119): a single
LOW gap of 15000 microseconds. -/
def tx_gap (gpio : Nat) : List pulse :=
  [⟨GPIO_NONE, gpio, tx_pulse_gap⟩]

/-- Number of binary digits printed for a positive number (the zero case is
handled in `pyBinLength`), computed with a structural fuel argument. -/
def binLengthAux : Nat → Nat → Nat
  | 0, _ => 0
  | fuel + 1, n => if n = 0 then 0 else binLengthAux fuel (n / 2) + 1

/-- Number of binary digit characters Python prints for `n` (one digit for
zero). -/
def pyBinLength (n : Nat) : Nat :=
  if n = 0 then 1 else binLengthAux n n

/-- The bit string built on cover.py line 76 by formatting `code` in binary
with the alternate form and field width `tx_length` and stripping the first
two characters, most significant bit first.  The field width 52 covers the
whole output including the two prefix characters, so the stripped string
holds `max (52 - 2) (number of binary digits)` characters, the digits
left-padded with zeros. -/
def rawcode (code : Nat) : List Bool :=
  (List.range (max (tx_length - 2) (pyBinLength code))).reverse.map code.testBit

/-- Per-bit body of the transmit loop (cover.py lines 77-81): a one bit
appends `tx_l0`, any other character appends `tx_l1`. -/
def emitBits (gpio : Nat) : List Bool → List pulse
  | [] => []
  | b :: bs => (if b then tx_l0 gpio else tx_l1 gpio) ++ emitBits gpio bs

/-- The waveform built by `RFDevice.tx_code` (cover.py lines 73-83): leading
sync pair, one pulse pair per character of the first 52 characters of
`rawcode`, trailing sync pair, gap pulse.  The Python loop reads
`rawcode[bit]` for every `bit < 52`; when the string is shorter than 52
characters this raises `IndexError` and no waveform is produced (`none`). -/
def tx_code (gpio : Nat) (code : Nat) : Option (List pulse) :=
  let raw := rawcode code
  if tx_length ≤ raw.length then
    some (tx_sync gpio ++ (emitBits gpio (raw.take tx_length) ++ (tx_sync gpio ++ tx_gap gpio)))
  else none

/-- State of `NextCodeEntity` (cover.py lines 36-52): the in-memory
rolling-code value together with the content of the durable code file. -/
structure NextCodeEntity where
  _attr_native_value : Nat
  code_file : Option Nat
deriving DecidableEq

/-- Transcription of `NextCodeEntity.increase` followed by `_save_to_config`
(cover.py lines 42-52): bump the in-memory value, then attempt the durable
write inside try/except; a failing write (`write_fails`) is caught and
logged (the returned flag) and the in-memory value is kept. -/
def increase (e : NextCodeEntity) (write_fails : Bool) : NextCodeEntity × Bool :=
  let e1 := { e with _attr_native_value := e._attr_native_value + 1 }
  if write_fails then (e1, true)
  else ({ e1 with code_file := some e1._attr_native_value }, false)

/-- Transcription of `_send_repeated` (cover.py lines 184-194): six frames,
one per repeat index in `range(1, 7)`, all encoded with the same rolling
code and transmitted in order. -/
def _send_repeated (tE tK : Nat → Nat) (serial button_id code : Nat) : List Nat :=
  (List.range' 1 6).map fun rpt => _nice_flor_s_encode tE tK serial code button_id rpt

/-- Observable controller actions, in program order. -/
inductive Ev where
  /-- An RF burst: button, rolling code, and the six transmitted frames. -/
  | tx (button_id code : Nat) (frames : List Nat)
  /-- A sleep for the given number of seconds. -/
  | sleepFor (seconds : ℚ)
  /-- A `_publish_state` call with the position it publishes. -/
  | publishState (position : Int)
deriving DecidableEq

/-- State labels published by `_publish_state`. -/
inductive StateLabel where
  | closed
  | opened
  | part_open
deriving DecidableEq

/-- The state label chosen by `_publish_state` (cover.py lines 266-272):
position 100 publishes closed, position 0 publishes open, anything else a
part-open label. -/
def state_for_position (position : Int) : StateLabel :=
  if position = 100 then StateLabel.closed
  else if position = 0 then StateLabel.opened
  else StateLabel.part_open

/-- Mutable attributes of `NiceBlindController` used by the command paths:
`current_position`, `single_button_pressed`, the rolling code held by
`next_code_entity`, the `startup_time` attribute (declared but not assigned
in the constructor, hence an `Option`), and the configured serial number. -/
structure CtrlState where
  current_position : Int
  single_button_pressed : Bool
  next_code : Nat
  startup_time : Option ℚ
  serial_number : Nat
deriving DecidableEq

/-- Controller state after the constructor (cover.py lines 173-176):
`current_position = 100`, `single_button_pressed = False`, and
`self.startup_time : float` is a bare annotation that assigns nothing. -/
def initState (serial_number start_code : Nat) : CtrlState :=
  ⟨100, false, start_code, none, serial_number⟩

/-- Transcription of `close_blind` (cover.py lines 336-342): unless
`no_change_position`, set the position to 100; send the CLOSE burst with the
current rolling code, publish, increment the rolling code, set
`single_button_pressed`. -/
def close_blind (tE tK : Nat → Nat) (s : CtrlState) (no_change_position : Bool) :
    CtrlState × List Ev :=
  let s1 := if no_change_position then s else { s with current_position := 100 }
  ({ s1 with next_code := s1.next_code + 1, single_button_pressed := true },
   [Ev.tx BUTTON_ID_CLOSE s1.next_code
      (_send_repeated tE tK s1.serial_number BUTTON_ID_CLOSE s1.next_code),
    Ev.publishState s1.current_position])

/-- Transcription of `open_blind` (cover.py lines 344-350): as `close_blind`
with button OPEN and position 0. -/
def open_blind (tE tK : Nat → Nat) (s : CtrlState) (no_change_position : Bool) :
    CtrlState × List Ev :=
  let s1 := if no_change_position then s else { s with current_position := 0 }
  ({ s1 with next_code := s1.next_code + 1, single_button_pressed := true },
   [Ev.tx BUTTON_ID_OPEN s1.next_code
      (_send_repeated tE tK s1.serial_number BUTTON_ID_OPEN s1.next_code),
    Ev.publishState s1.current_position])

/-- Transcription of `stop_blind` (cover.py lines 352-356): STOP burst,
publish, increment, set `single_button_pressed`; the position is not
changed. -/
def stop_blind (tE tK : Nat → Nat) (s : CtrlState) : CtrlState × List Ev :=
  ({ s with next_code := s.next_code + 1, single_button_pressed := true },
   [Ev.tx BUTTON_ID_STOP s.next_code
      (_send_repeated tE tK s.serial_number BUTTON_ID_STOP s.next_code),
    Ev.publishState s.current_position])

/-- Transcription of `set_position` (cover.py lines 358-373): if
`single_button_pressed`, first run a full `close_blind`; compute the delta
and the float sleep `delta * thingy_time / 100` (exactly, in the rationals);
run the direction burst with `no_change_position=True`, sleep, `stop_blind`;
then set the position to the target, publish, and clear
`single_button_pressed`. -/
def set_position (tE tK : Nat → Nat) (s : CtrlState) (position thingy_time : Int) :
    CtrlState × List Ev :=
  let r0 := if s.single_button_pressed then close_blind tE tK s false else (s, [])
  let s0 := r0.1
  let delta : Int := |s0.current_position - position|
  let time_to_execute : ℚ := ((delta * thingy_time : Int) : ℚ) / 100
  let r1 := if position > s0.current_position
            then close_blind tE tK s0 true
            else open_blind tE tK s0 true
  let r2 := stop_blind tE tK r1.1
  ({ r2.1 with current_position := position, single_button_pressed := false },
   r0.2 ++ (r1.2 ++ (Ev.sleepFor time_to_execute :: (r2.2 ++ [Ev.publishState position]))))

/-- Transcription of `start` (cover.py lines 309-328): after connecting the
MQTT client, run the boot reference `close_blind()` and only afterwards
assign `self.startup_time`. -/
def start (tE tK : Nat → Nat) (s : CtrlState) (now : ℚ) : CtrlState × List Ev :=
  let r := close_blind tE tK s false
  ({ r.1 with startup_time := some now }, r.2)

/-- Python runtime errors surfaced by the message handler. -/
inductive PyErr where
  | attributeError
deriving DecidableEq

/-- Payloads on the set topic. -/
inductive SetPayload where
  | OPEN
  | CLOSE
  | STOP
  | unknown
deriving DecidableEq

/-- Payloads on the set-position topic (a malformed payload raises
`ValueError` in `int(payload)`, which is caught and logged). -/
inductive PosPayload where
  | val (n : Int)
  | malformed
deriving DecidableEq

/-- An inbound MQTT message, already split by topic suffix. -/
inductive InMsg where
  | onSet (p : SetPayload)
  | onSetPos (p : PosPayload)
deriving DecidableEq

/-- Transcription of `_on_mqtt_message` (cover.py lines 277-307).  The guard
`time.time() - self.startup_time < thingy_time and thingy_time > 0` reads
`self.startup_time` first: before `start()` has assigned it, the read raises
`AttributeError`.  Inside the guard window the message is dropped; otherwise
the command is dispatched; position commands additionally require a positive
configured transition time. -/
def _on_mqtt_message (tE tK : Nat → Nat) (s : CtrlState) (msg : InMsg)
    (now : ℚ) (thingy_time : Int) : Except PyErr (CtrlState × List Ev) :=
  match s.startup_time with
  | none => .error .attributeError
  | some t0 =>
    if now - t0 < (thingy_time : ℚ) ∧ 0 < thingy_time then .ok (s, [])
    else
      match msg with
      | .onSet .OPEN => .ok (open_blind tE tK s false)
      | .onSet .CLOSE => .ok (close_blind tE tK s false)
      | .onSet .STOP => .ok (stop_blind tE tK s)
      | .onSet .unknown => .ok (s, [])
      | .onSetPos p =>
        if thingy_time ≤ 0 then .ok (s, [])
        else
          match p with
          | .malformed => .ok (s, [])
          | .val n => .ok (set_position tE tK s n thingy_time)

/-- The three direct MQTT button commands. -/
inductive Cmd where
  | openCmd
  | closeCmd
  | stopCmd
deriving DecidableEq

/-- Dispatch of a direct button command, as in `_on_mqtt_message`. -/
def execCmd (tE tK : Nat → Nat) (s : CtrlState) : Cmd → CtrlState × List Ev
  | .openCmd => open_blind tE tK s false
  | .closeCmd => close_blind tE tK s false
  | .stopCmd => stop_blind tE tK s

/-- Sequential processing of button commands in arrival order. -/
def runCmds (tE tK : Nat → Nat) (s : CtrlState) : List Cmd → CtrlState × List Ev
  | [] => (s, [])
  | c :: cs =>
    let r := execCmd tE tK s c
    let r2 := runCmds tE tK r.1 cs
    (r2.1, r.2 ++ r2.2)

/-- The rolling codes consumed by the bursts of a trace. -/
def codesUsed (evs : List Ev) : List Nat :=
  evs.filterMap fun e =>
    match e with
    | Ev.tx _ c _ => some c
    | _ => none

/-! ## Bit-arithmetic helper lemmas -/

/-- A value below `2 ^ k` or-ed with a `k`-shifted value is their sum. -/
theorem lor_shiftLeft_of_lt : ∀ (k x y : Nat), x < 2 ^ k → x ||| y <<< k = 2 ^ k * y + x := by
  intro k
  induction k with
  | zero =>
    intro x y hx
    have hx0 : x = 0 := by omega
    subst hx0
    simp [Nat.zero_or, Nat.shiftLeft_zero]
  | succ k ih =>
    intro x y hx
    have hdecomp : x ||| y <<< (k + 1) = 2 * (x / 2 ||| (y <<< (k + 1)) / 2) + (x ||| y <<< (k + 1)) % 2 := by
      rw [← Nat.or_div_two]
      omega
    have hdiv : (y <<< (k + 1)) / 2 = y <<< k := by
      rw [Nat.shiftLeft_eq, Nat.shiftLeft_eq, Nat.pow_succ, ← Nat.mul_assoc]
      exact Nat.mul_div_cancel _ (by norm_num)
    have hmod0 : (y <<< (k + 1)) % 2 = 0 := by
      rw [Nat.shiftLeft_eq, Nat.pow_succ, ← Nat.mul_assoc]
      simp [Nat.mul_mod_left]
    have hormod : (x ||| y <<< (k + 1)) % 2 = x % 2 := by
      rcases Nat.mod_two_eq_zero_or_one x with h | h
      · have hne : ¬(x ||| y <<< (k + 1)) % 2 = 1 := by
          rw [Nat.or_mod_two_eq_one]
          omega
        omega
      · have heq : (x ||| y <<< (k + 1)) % 2 = 1 := by
          rw [Nat.or_mod_two_eq_one]
          omega
        omega
    have hx2 : x / 2 < 2 ^ k := by
      have := Nat.pow_succ 2 k
      omega
    have hih := ih (x / 2) y hx2
    rw [hdecomp, hdiv, hih, hormod]
    have hz : 2 ^ (k + 1) * y = 2 * (2 ^ k * y) := by ring
    rw [hz]
    generalize 2 ^ k * y = z
    omega

/-- Symmetric form of `lor_shiftLeft_of_lt`. -/
theorem shiftLeft_lor_of_lt (k x y : Nat) (h : x < 2 ^ k) :
    y <<< k ||| x = 2 ^ k * y + x := by
  rw [Nat.lor_comm]
  exact lor_shiftLeft_of_lt k x y h

/-- Shifting left distributes over bitwise and. -/
theorem shiftLeft_and_shiftLeft (a b n : Nat) :
    (a <<< n) &&& (b <<< n) = (a &&& b) <<< n := by
  apply Nat.eq_of_testBit_eq
  intro j
  simp only [Nat.testBit_and, Nat.testBit_shiftLeft]
  by_cases h : n ≤ j <;> simp [h]

/-- Shifting right distributes over bitwise and. -/
theorem shiftRight_and_shiftRight (a b n : Nat) :
    (a &&& b) >>> n = (a >>> n) &&& (b >>> n) := by
  apply Nat.eq_of_testBit_eq
  intro j
  simp only [Nat.testBit_and, Nat.testBit_shiftRight]

/-- Masking by the low-nibble mask is reduction modulo 16. -/
theorem and_15_eq_mod (x : Nat) : x &&& 15 = x % 16 := by
  have h := Nat.and_pow_two_sub_one_eq_mod x 4
  norm_num at h
  exact h

/-- A left shift by 4 masked by the high-nibble mask keeps the low nibble,
shifted up. -/
theorem shl4_and_240 (x : Nat) : (x <<< 4) &&& 240 = x % 16 * 16 := by
  have h240 : (240 : Nat) = 15 <<< 4 := by norm_num [Nat.shiftLeft_eq]
  rw [h240, shiftLeft_and_shiftLeft, and_15_eq_mod, Nat.shiftLeft_eq]

/-- Masking by the high-nibble mask then shifting down extracts the high
nibble. -/
theorem and_240_shr_4 (x : Nat) : (x &&& 240) >>> 4 = x / 16 % 16 := by
  rw [shiftRight_and_shiftRight]
  have h240 : (240 : Nat) >>> 4 = 15 := by norm_num [Nat.shiftRight_eq_div_pow]
  rw [h240, and_15_eq_mod, Nat.shiftRight_eq_div_pow]

/-- Mask-then-shift byte extraction equals shift-then-mask, byte 1. -/
theorem byte_extract_8 (x : Nat) : (x &&& 0xFF00) >>> 8 = (x >>> 8) &&& 0xFF := by
  rw [shiftRight_and_shiftRight]
  norm_num [Nat.shiftRight_eq_div_pow]

/-- Mask-then-shift byte extraction equals shift-then-mask, byte 2. -/
theorem byte_extract_16 (x : Nat) : (x &&& 0xFF0000) >>> 16 = (x >>> 16) &&& 0xFF := by
  rw [shiftRight_and_shiftRight]
  norm_num [Nat.shiftRight_eq_div_pow]

/-- Mask-then-shift byte extraction equals shift-then-mask, byte 3. -/
theorem byte_extract_24 (x : Nat) : (x &&& 0xFF000000) >>> 24 = (x >>> 24) &&& 0xFF := by
  rw [shiftRight_and_shiftRight]
  norm_num [Nat.shiftRight_eq_div_pow]

/-- Combining a shifted nibble with a high-nibble extraction is addition. -/
theorem nibble_pair_eq (a w : Nat) : (a <<< 4) ||| (w / 16 % 16) = 16 * a + w / 16 % 16 := by
  have h := shiftLeft_lor_of_lt 4 (w / 16 % 16) a (by omega)
  rw [h]
  norm_num

/-- The interleaved or-chain of cover.py lines 217-224 computes exactly the
nibble pack of the specification. -/
theorem pack_eq (v0 v1 v2 v3 v4 v5 v6 : Nat) :
    ((((((((v6 <<< 4) &&& 0xF0) <<< 0
      ||| ((((v5 &&& 0x0F) <<< 4) ||| ((v6 &&& 0xF0) >>> 4)) <<< 8))
      ||| ((((v4 &&& 0x0F) <<< 4) ||| ((v5 &&& 0xF0) >>> 4)) <<< 16))
      ||| ((((v3 &&& 0x0F) <<< 4) ||| ((v4 &&& 0xF0) >>> 4)) <<< 24))
      ||| ((((v2 &&& 0x0F) <<< 4) ||| ((v3 &&& 0xF0) >>> 4)) <<< 32))
      ||| ((((v1 &&& 0x0F) <<< 4) ||| ((v2 &&& 0xF0) >>> 4)) <<< 40))
      ||| ((((v0 &&& 0x0F) <<< 4) ||| ((v1 &&& 0xF0) >>> 4)) <<< 48))
    = spec_pack v0 v1 v2 v3 v4 v5 v6 := by
  simp only [Nat.shiftLeft_zero, shl4_and_240, and_15_eq_mod, and_240_shr_4, nibble_pair_eq]
  rw [lor_shiftLeft_of_lt 8 (v6 % 16 * 16)
    (16 * (v5 % 16) + v6 / 16 % 16) (by omega)]
  rw [lor_shiftLeft_of_lt 16
    (2 ^ 8 * (16 * (v5 % 16) + v6 / 16 % 16) + v6 % 16 * 16)
    (16 * (v4 % 16) + v5 / 16 % 16) (by omega)]
  rw [lor_shiftLeft_of_lt 24
    (2 ^ 16 * (16 * (v4 % 16) + v5 / 16 % 16) +
      (2 ^ 8 * (16 * (v5 % 16) + v6 / 16 % 16) + v6 % 16 * 16))
    (16 * (v3 % 16) + v4 / 16 % 16) (by omega)]
  rw [lor_shiftLeft_of_lt 32
    (2 ^ 24 * (16 * (v3 % 16) + v4 / 16 % 16) +
      (2 ^ 16 * (16 * (v4 % 16) + v5 / 16 % 16) +
        (2 ^ 8 * (16 * (v5 % 16) + v6 / 16 % 16) + v6 % 16 * 16)))
    (16 * (v2 % 16) + v3 / 16 % 16) (by omega)]
  rw [lor_shiftLeft_of_lt 40
    (2 ^ 32 * (16 * (v2 % 16) + v3 / 16 % 16) +
      (2 ^ 24 * (16 * (v3 % 16) + v4 / 16 % 16) +
        (2 ^ 16 * (16 * (v4 % 16) + v5 / 16 % 16) +
          (2 ^ 8 * (16 * (v5 % 16) + v6 / 16 % 16) + v6 % 16 * 16))))
    (16 * (v1 % 16) + v2 / 16 % 16) (by omega)]
  rw [lor_shiftLeft_of_lt 48
    (2 ^ 40 * (16 * (v1 % 16) + v2 / 16 % 16) +
      (2 ^ 32 * (16 * (v2 % 16) + v3 / 16 % 16) +
        (2 ^ 24 * (16 * (v3 % 16) + v4 / 16 % 16) +
          (2 ^ 16 * (16 * (v4 % 16) + v5 / 16 % 16) +
            (2 ^ 8 * (16 * (v5 % 16) + v6 / 16 % 16) + v6 % 16 * 16)))))
    (16 * (v0 % 16) + v1 / 16 % 16) (by omega)]
  unfold spec_pack
  omega

/-- The specification pack stays below `2 ^ 56`. -/
theorem spec_pack_lt (e0 e1 e2 e3 e4 e5 e6 : Nat) :
    spec_pack e0 e1 e2 e3 e4 e5 e6 < 2 ^ 56 := by
  unfold spec_pack
  omega

/-- A 56-bit pack value, xored and shifted down a nibble, is already 52-bit. -/
theorem xor_shift_trunc52 (p : Nat) (hp : p < 2 ^ 56) :
    (p ^^^ 0xFFFFFFFFFFFFF0) >>> 4 = ((p ^^^ 0xFFFFFFFFFFFFF0) >>> 4) % 2 ^ 52 := by
  have hx : p ^^^ 0xFFFFFFFFFFFFF0 < 2 ^ 56 := Nat.xor_lt_two_pow hp (by norm_num)
  simp only [Nat.shiftRight_eq_div_pow]
  omega

/-- C1: for every serial, every code in the domain of the tables (the tables
being abstracted as total functions), every button and every repeat,
`_nice_flor_s_encode` equals the reference algorithm of the specification:
bytes split least-significant first, `enc` and `ki` lookups,
the seven bytes e0..e6 exactly as written
(`e1 = ((repeat XOR button XOR 0x0F) << 4) | ((b3 XOR ki) & 0x0F)`),
nibble-interleaved reverse-byte-order pack, and
`(packed XOR 0xFFFFFFFFFFFFF0) >> 4` as a 52-bit value. -/
theorem encode_matches_spec_algorithm (tE tK : Nat → Nat) (serial code button_id rpt : Nat) :
    _nice_flor_s_encode tE tK serial code button_id rpt =
      spec_encode tE tK serial code button_id rpt := by
  unfold _nice_flor_s_encode spec_encode
  simp only [byte_extract_8, byte_extract_16, byte_extract_24]
  rw [pack_eq]
  exact xor_shift_trunc52 _ (spec_pack_lt _ _ _ _ _ _ _)

/-! ## Serializer lemmas -/

/-- The function `binLengthAux` measures the binary length whenever enough
fuel is given. -/
theorem binLengthAux_le_iff :
    ∀ (fuel n k : Nat), n ≤ fuel → (binLengthAux fuel n ≤ k ↔ n < 2 ^ k) := by
  intro fuel
  induction fuel with
  | zero =>
    intro n k hn
    have hn0 : n = 0 := by omega
    subst hn0
    simp [binLengthAux, Nat.two_pow_pos]
  | succ fuel ih =>
    intro n k hn
    by_cases h0 : n = 0
    · subst h0
      simp [binLengthAux, Nat.two_pow_pos]
    · rw [show binLengthAux (fuel + 1) n = binLengthAux fuel (n / 2) + 1 by
        simp [binLengthAux, h0]]
      cases k with
      | zero =>
        simp only [Nat.pow_zero]
        omega
      | succ k =>
        have hfuel : n / 2 ≤ fuel := by omega
        have hiter := ih (n / 2) k hfuel
        have hpow := Nat.pow_succ 2 k
        constructor
        · intro hle
          have h1 : n / 2 < 2 ^ k := hiter.mp (by omega)
          omega
        · intro hlt
          have h1 : n / 2 < 2 ^ k := by omega
          have h2 := hiter.mpr h1
          omega

/-- Frames between `2 ^ 51` and `2 ^ 52` print as exactly 52 binary digits. -/
theorem pyBinLength_eq_52 {code : Nat} (h1 : 2 ^ 51 ≤ code) (h2 : code < 2 ^ 52) :
    pyBinLength code = 52 := by
  have hne : code ≠ 0 := by positivity
  rw [pyBinLength, if_neg hne]
  have hle : binLengthAux code code ≤ 52 := (binLengthAux_le_iff code code 52 le_rfl).mpr h2
  have hgt : ¬binLengthAux code code ≤ 51 := by
    intro hcontra
    have := (binLengthAux_le_iff code code 51 le_rfl).mp hcontra
    omega
  omega

/-- Frames below `2 ^ 52` print as at most 52 binary digits. -/
theorem pyBinLength_le_52 {code : Nat} (h2 : code < 2 ^ 52) : pyBinLength code ≤ 52 := by
  by_cases hne : code = 0
  · simp [pyBinLength, hne]
  · rw [pyBinLength, if_neg hne]
    exact (binLengthAux_le_iff code code 52 le_rfl).mpr h2

/-- Length of the formatted bit string. -/
theorem rawcode_length (code : Nat) :
    (rawcode code).length = max 50 (pyBinLength code) := by
  simp [rawcode, tx_length]

/-- Characters of a 52-character `rawcode` are the bits of the frame, most
significant first. -/
theorem rawcode_getD {code i : Nat} (h52 : (rawcode code).length = 52) (hi : i < 52) :
    (rawcode code).getD i false = code.testBit (51 - i) := by
  have hL : max (tx_length - 2) (pyBinLength code) = 52 := by
    have := rawcode_length code
    simp only [rawcode, List.length_map, List.length_reverse, List.length_range] at h52
    exact h52
  have hi2 : i < (rawcode code).length := by omega
  rw [List.getD_eq_getElem _ _ hi2]
  simp only [rawcode, hL]
  rw [List.getElem_map, List.getElem_reverse, List.getElem_range]
  simp only [List.length_range]

/-- The emitted bit section is twice as long as its bit string. -/
theorem emitBits_length (gpio : Nat) : ∀ l : List Bool, (emitBits gpio l).length = 2 * l.length := by
  intro l
  induction l with
  | nil => rfl
  | cons b bs ih =>
    have hlen2 : (if b then tx_l0 gpio else tx_l1 gpio).length = 2 := by cases b <;> rfl
    simp only [emitBits, List.length_append, ih, List.length_cons, hlen2]
    omega

/-- Dropping twice the bit index from an emitted bit section lands exactly
on the pulse pair of that bit. -/
theorem emitBits_drop (gpio : Nat) :
    ∀ (l : List Bool) (i : Nat), i < l.length →
      (emitBits gpio l).drop (2 * i) =
        (if l.getD i false then tx_l0 gpio else tx_l1 gpio) ++ emitBits gpio (l.drop (i + 1)) := by
  intro l
  induction l with
  | nil =>
    intro i hi
    simp at hi
  | cons b bs ih =>
    intro i hi
    cases i with
    | zero =>
      simp [emitBits]
    | succ i =>
      have hstep : (emitBits gpio (b :: bs)).drop (2 * (i + 1)) = (emitBits gpio bs).drop (2 * i) := by
        have hlen2 : (if b then tx_l0 gpio else tx_l1 gpio).length = 2 := by
          cases b <;> rfl
        rw [show emitBits gpio (b :: bs) = (if b then tx_l0 gpio else tx_l1 gpio) ++ emitBits gpio bs from rfl]
        rw [show 2 * (i + 1) = (if b then tx_l0 gpio else tx_l1 gpio).length + 2 * i by omega]
        exact List.drop_append (2 * i)
      rw [hstep, ih i (by simpa using hi)]
      simp

/-- C2: for every bit of the 52-bit frame processed by the serializer, a bit
equal to 1 produces the pulse pair (HIGH, 500), (LOW, 1000) and a bit equal
to 0 produces the pulse pair (HIGH, 1000), (LOW, 500), the 52 pairs appearing
most-significant bit first between the leading and trailing sync pairs. -/
theorem tx_code_bit_mapping (gpio code : Nat) (wf : List pulse)
    (hcode : code < 2 ^ 52) (hsome : tx_code gpio code = some wf) :
    ∀ i : Nat, i < 52 →
      (wf.drop (2 + 2 * i)).take 2 =
        if code.testBit (51 - i)
        then [pulse.mk gpio 0 500, pulse.mk 0 gpio 1000]
        else [pulse.mk gpio 0 1000, pulse.mk 0 gpio 500] := by
  intro i hi
  simp only [tx_code] at hsome
  split at hsome
  case isFalse => exact absurd hsome (by simp)
  case isTrue hlen =>
    have hwf : wf = tx_sync gpio ++
        (emitBits gpio ((rawcode code).take tx_length) ++ (tx_sync gpio ++ tx_gap gpio)) := by
      injection hsome with h
      exact h.symm
    have h52 : (rawcode code).length = 52 := by
      have hle := pyBinLength_le_52 hcode
      have := rawcode_length code
      simp only [tx_length] at hlen
      omega
    have htake : (rawcode code).take tx_length = rawcode code :=
      List.take_of_length_le (by simp only [tx_length]; omega)
    subst hwf
    rw [htake]
    rw [show (2 + 2 * i) = (tx_sync gpio).length + 2 * i from rfl]
    rw [List.drop_append]
    rw [List.drop_append_of_le_length (by rw [emitBits_length]; omega)]
    rw [emitBits_drop gpio (rawcode code) i (by omega)]
    rw [List.append_assoc]
    rw [rawcode_getD h52 hi]
    have htake2 : ∀ (b : Bool) (rest : List pulse),
        ((if b then tx_l0 gpio else tx_l1 gpio) ++ rest).take 2 =
          (if b then tx_l0 gpio else tx_l1 gpio) := by
      intro b rest
      cases b <;> rfl
    rw [htake2]
    cases code.testBit (51 - i) <;> rfl

/-- C2 witness: at the concrete frame `2 ^ 51` (whose most significant bit
is 1) the first bit pair after the leading sync is (HIGH, 500), (LOW, 1000). -/
theorem tx_code_bit_mapping_witness :
    ((((tx_code 1 (2 ^ 51)).getD []).drop 2).take 2) = [pulse.mk 1 0 500, pulse.mk 0 1 1000] := by
  have h := tx_code_bit_mapping 1 (2 ^ 51) ((tx_code 1 (2 ^ 51)).getD [])
    (by norm_num) (by decide) 0 (by norm_num)
  simpa using h

/-- C3: evaluation of the serializer at in-range failing inputs.  For the
52-bit frame 0 the formatted string has only 50 characters (the field width
52 includes the two prefix characters) and the 52-iteration transmit loop
fails with an index error (modelled as `none`); likewise for `2 ^ 50` (51
characters); frames of 52 binary digits such as `2 ^ 51` do serialize, to
exactly 109 pulses. -/
theorem tx_code_short_frame_fails :
    tx_code 1 0 = none ∧ (rawcode 0).length = 50 ∧
      tx_code 1 (2 ^ 50) = none ∧ (rawcode (2 ^ 50)).length = 51 ∧
      (tx_code 1 (2 ^ 51)).map List.length = some 109 := by
  refine ⟨by decide, by decide, by decide, by decide, by decide⟩

/-! ## Controller lemmas -/

/-- Each button command consumes exactly its entry code and advances by 1. -/
theorem execCmd_code (tE tK : Nat → Nat) (s : CtrlState) (c : Cmd) :
    (execCmd tE tK s c).1.next_code = s.next_code + 1 ∧
      codesUsed (execCmd tE tK s c).2 = [s.next_code] := by
  cases c <;> exact ⟨rfl, rfl⟩

/-- Sequential commands consume consecutive rolling codes. -/
theorem runCmds_codes (tE tK : Nat → Nat) :
    ∀ (cmds : List Cmd) (s : CtrlState),
      codesUsed (runCmds tE tK s cmds).2 = List.range' s.next_code cmds.length ∧
        (runCmds tE tK s cmds).1.next_code = s.next_code + cmds.length := by
  intro cmds
  induction cmds with
  | nil =>
    intro s
    exact ⟨rfl, rfl⟩
  | cons c cs ih =>
    intro s
    have hc := execCmd_code tE tK s c
    have hi := ih (execCmd tE tK s c).1
    constructor
    · show codesUsed (((execCmd tE tK s c).2) ++ (runCmds tE tK (execCmd tE tK s c).1 cs).2) = _
      rw [codesUsed, List.filterMap_append]
      rw [show List.filterMap _ (execCmd tE tK s c).2 = codesUsed (execCmd tE tK s c).2 from rfl]
      rw [show List.filterMap _ (runCmds tE tK (execCmd tE tK s c).1 cs).2 =
        codesUsed (runCmds tE tK (execCmd tE tK s c).1 cs).2 from rfl]
      rw [hc.2, hi.1, hc.1]
      rw [List.length_cons, List.range'_succ]
      rfl
    · show (runCmds tE tK (execCmd tE tK s c).1 cs).1.next_code = _
      rw [hi.2, hc.1, List.length_cons]
      omega

/-- C4: every burst consists of exactly six frames encoded with the same
rolling code at repeat indices 1 through 6 in strictly increasing order, the
rolling code advances by exactly 1 per logical command (not per repeat
frame), and N sequential commands starting at some code consume exactly that
code and the following N-1 values. -/
theorem burst_six_frames_rolling_code (tE tK : Nat → Nat)
    (serial button_id code : Nat) (s : CtrlState) (cmds : List Cmd) :
    _send_repeated tE tK serial button_id code =
      [_nice_flor_s_encode tE tK serial code button_id 1,
       _nice_flor_s_encode tE tK serial code button_id 2,
       _nice_flor_s_encode tE tK serial code button_id 3,
       _nice_flor_s_encode tE tK serial code button_id 4,
       _nice_flor_s_encode tE tK serial code button_id 5,
       _nice_flor_s_encode tE tK serial code button_id 6] ∧
    (∀ c : Cmd, (execCmd tE tK s c).1.next_code = s.next_code + 1 ∧
      codesUsed (execCmd tE tK s c).2 = [s.next_code]) ∧
    codesUsed (runCmds tE tK s cmds).2 = List.range' s.next_code cmds.length := by
  refine ⟨rfl, fun c => execCmd_code tE tK s c, (runCmds_codes tE tK cmds s).1⟩

/-- C5: with the position known (`single_button_pressed = false`),
`set_position` computes the delta between the tracked position and the
target, issues the direction burst (CLOSE when the target is above the
current position, OPEN otherwise) without touching the position, sleeps
`delta * thingy_time / 100` seconds, issues a STOP burst, and only then sets
the position to the target, publishes it, and clears the flag. -/
theorem set_position_known (tE tK : Nat → Nat) (s : CtrlState)
    (position thingy_time : Int) (hknown : s.single_button_pressed = false) :
    set_position tE tK s position thingy_time =
      ({ s with current_position := position, single_button_pressed := false,
                next_code := s.next_code + 2 },
       [Ev.tx (if position > s.current_position then BUTTON_ID_CLOSE else BUTTON_ID_OPEN)
          s.next_code
          (_send_repeated tE tK s.serial_number
            (if position > s.current_position then BUTTON_ID_CLOSE else BUTTON_ID_OPEN)
            s.next_code),
        Ev.publishState s.current_position,
        Ev.sleepFor (((|s.current_position - position| * thingy_time : Int) : ℚ) / 100),
        Ev.tx BUTTON_ID_STOP (s.next_code + 1)
          (_send_repeated tE tK s.serial_number BUTTON_ID_STOP (s.next_code + 1)),
        Ev.publishState s.current_position,
        Ev.publishState position]) := by
  unfold set_position
  rw [hknown]
  by_cases hdir : position > s.current_position
  · simp only [if_pos hdir, if_neg (Bool.false_ne_true)]
    simp [close_blind, stop_blind]
  · simp only [if_neg hdir, if_neg (Bool.false_ne_true)]
    simp [open_blind, stop_blind]

/-- C5 witness: from position 0 with the flag clear, a set-position command
to 50 with transition time 100 ends at position 50 with the flag clear,
after exactly the six-event estimated move. -/
theorem set_position_known_witness :
    (set_position (fun _ => 0) (fun _ => 0) ⟨0, false, 5, none, 1⟩ 50 100).1 =
      (⟨50, false, 7, none, 1⟩ : CtrlState) ∧
    (set_position (fun _ => 0) (fun _ => 0) ⟨0, false, 5, none, 1⟩ 50 100).2.length = 6 := by
  have h := set_position_known (fun _ => 0) (fun _ => 0) ⟨0, false, 5, none, 1⟩ 50 100 rfl
  rw [h]
  exact ⟨rfl, rfl⟩

/-- C6: with the position unknown (`single_button_pressed = true`),
`set_position` first performs a full reference CLOSE burst, re-establishing
the closed extreme (position 100, published as closed) as the current
position, and only then computes the estimation delta (now from 100) and
moves toward the target. -/
theorem set_position_unknown_references_close (tE tK : Nat → Nat) (s : CtrlState)
    (position thingy_time : Int) (hunknown : s.single_button_pressed = true) :
    set_position tE tK s position thingy_time =
      ({ s with current_position := position, single_button_pressed := false,
                next_code := s.next_code + 3 },
       [Ev.tx BUTTON_ID_CLOSE s.next_code
          (_send_repeated tE tK s.serial_number BUTTON_ID_CLOSE s.next_code),
        Ev.publishState 100,
        Ev.tx (if position > (100 : Int) then BUTTON_ID_CLOSE else BUTTON_ID_OPEN)
          (s.next_code + 1)
          (_send_repeated tE tK s.serial_number
            (if position > (100 : Int) then BUTTON_ID_CLOSE else BUTTON_ID_OPEN)
            (s.next_code + 1)),
        Ev.publishState 100,
        Ev.sleepFor (((|(100 : Int) - position| * thingy_time : Int) : ℚ) / 100),
        Ev.tx BUTTON_ID_STOP (s.next_code + 2)
          (_send_repeated tE tK s.serial_number BUTTON_ID_STOP (s.next_code + 2)),
        Ev.publishState 100,
        Ev.publishState position]) ∧
      state_for_position 100 = StateLabel.closed := by
  constructor
  · unfold set_position
    rw [hunknown]
    by_cases hdir : position > (100 : Int)
    · simp only [if_pos hdir]
      simp [close_blind, open_blind, stop_blind, hdir]
    · simp only [if_neg hdir]
      simp [close_blind, open_blind, stop_blind, hdir]
  · rfl

/-- C6 witness: from a state with the flag set, a set-position command to 50
begins with the reference CLOSE burst before estimating. -/
theorem set_position_unknown_witness :
    (set_position (fun _ => 0) (fun _ => 0) ⟨0, true, 5, none, 1⟩ 50 100).2.head? =
      some (Ev.tx BUTTON_ID_CLOSE 5 (_send_repeated (fun _ => 0) (fun _ => 0) 1 BUTTON_ID_CLOSE 5)) ∧
    (set_position (fun _ => 0) (fun _ => 0) ⟨0, true, 5, none, 1⟩ 50 100).2.length = 8 := by
  have h := set_position_unknown_references_close (fun _ => 0) (fun _ => 0)
    ⟨0, true, 5, none, 1⟩ 50 100 rfl
  rw [h.1]
  exact ⟨rfl, rfl⟩

/-- C7 counterexample: after `start()` the `single_button_pressed` flag is
set (the startup `close_blind()` sets it), i.e. the tracked position is
marked unreliable rather than known, and the first set-position command
afterwards runs the 8-event re-referencing path (an extra CLOSE burst)
instead of the 6-event direct estimation the claim describes. -/
theorem start_marks_position_unreliable :
    ((start (fun _ => 0) (fun _ => 0) (initState 1 7) 0).1.single_button_pressed = true) ∧
    (set_position (fun _ => 0) (fun _ => 0)
      ((start (fun _ => 0) (fun _ => 0) (initState 1 7) 0).1) 50 100).2.length = 8 := by
  exact ⟨rfl, rfl⟩

/-- C7 amended: at startup the controller sends a full CLOSE burst, sets the
position to the reference extreme 100 (published as closed) and records the
startup time, but it also sets `single_button_pressed`, so the first
set-position command after startup performs another reference CLOSE burst
before estimating instead of estimating directly. -/
theorem start_reference_close (tE tK : Nat → Nat) (serial start_code : Nat) (now : ℚ) :
    start tE tK (initState serial start_code) now =
      ((⟨100, true, start_code + 1, some now, serial⟩ : CtrlState),
       [Ev.tx BUTTON_ID_CLOSE start_code
          (_send_repeated tE tK serial BUTTON_ID_CLOSE start_code),
        Ev.publishState 100]) ∧
      state_for_position 100 = StateLabel.closed := by
  exact ⟨rfl, rfl⟩

/-- C8: when the durable write fails, `NextCodeEntity.increase` still holds
the advanced value in memory, the failure is logged, and the file is left
unchanged (the advance is never rolled back); a successful write persists
the advanced value. -/
theorem increase_commits_memory_on_write_failure (e : NextCodeEntity) :
    (increase e true).1._attr_native_value = e._attr_native_value + 1 ∧
    (increase e true).2 = true ∧
    (increase e true).1.code_file = e.code_file ∧
    (increase e false).1._attr_native_value = e._attr_native_value + 1 ∧
    (increase e false).1.code_file = some (e._attr_native_value + 1) := by
  exact ⟨rfl, rfl, rfl, rfl, rfl⟩

/-- C9: every direct command (`close_blind`, `open_blind`, `stop_blind`)
leaves `single_button_pressed = true`, so the immediately following
`set_position` always begins with the reference CLOSE burst, even when the
preceding command was itself a full CLOSE or OPEN. -/
theorem direct_commands_force_reference (tE tK : Nat → Nat) (s : CtrlState)
    (b : Bool) (position thingy_time : Int) :
    (close_blind tE tK s b).1.single_button_pressed = true ∧
    (open_blind tE tK s b).1.single_button_pressed = true ∧
    (stop_blind tE tK s).1.single_button_pressed = true ∧
    (set_position tE tK { s with single_button_pressed := true } position thingy_time).2.head? =
      some (Ev.tx BUTTON_ID_CLOSE s.next_code
        (_send_repeated tE tK s.serial_number BUTTON_ID_CLOSE s.next_code)) := by
  refine ⟨by cases b <;> rfl, by cases b <;> rfl, rfl, ?_⟩
  show (set_position tE tK _ position thingy_time).2.head? = _
  unfold set_position
  simp [close_blind]

/-- C10: the startup guard timestamp does not exist until `start()` assigns
it after the blocking reference burst: the constructor leaves it unassigned,
any message handled while it is unassigned (with a positive configured
transition time) fails with an attribute error instead of being ignored or
processed, `close_blind` never assigns it, and `start` assigns it only in
its final step, after the burst. -/
theorem startup_time_guard (tE tK : Nat → Nat) (s : CtrlState) (msg : InMsg)
    (now : ℚ) (thingy_time : Int) (serial start_code : Nat) (boot : ℚ) :
    (initState serial start_code).startup_time = none ∧
    (s.startup_time = none → 0 < thingy_time →
      _on_mqtt_message tE tK s msg now thingy_time = Except.error PyErr.attributeError) ∧
    (close_blind tE tK s false).1.startup_time = s.startup_time ∧
    (start tE tK s boot).1.startup_time = some boot := by
  refine ⟨rfl, ?_, rfl, rfl⟩
  intro hnone _
  unfold _on_mqtt_message
  rw [hnone]

/-- C10 witness: before `start()` completes, an OPEN command with a positive
configured transition time hits the unassigned startup timestamp and
errors. -/
theorem startup_time_guard_witness :
    _on_mqtt_message (fun _ => 0) (fun _ => 0) (initState 1 7)
      (InMsg.onSet SetPayload.OPEN) 0 10 = Except.error PyErr.attributeError := by
  have h := startup_time_guard (fun _ => 0) (fun _ => 0) (initState 1 7)
    (InMsg.onSet SetPayload.OPEN) 0 10 1 7 0
  exact h.2.1 rfl (by norm_num)

end Cover
